import Mathlib

/-!
A shallow embedding of the orchestration core of the `vue-type-check` CLI
(`src/index.ts`).  External collaborators (the Node `glob`/`fs` layer, the
`path.resolve` function, and the two vetur-based diagnostic producers) are
passed in as explicit parameters, so every run of the embedded code is a pure
function of its inputs.  Observable actions (document loading, validation,
progress ticks, report lines, the fail-fast stop notice, cache disposal, the
summary line and the final `process.exit`) are recorded as an event trace.
-/

namespace Vtc

/-- A diagnostic produced by one of the two external producers
(`vscode-languageserver`'s `Diagnostic`).  Only the `message` field is
observed by the orchestration layer's reporting; the `range` fields drive
pretty-printing only, which is outside the properties verified here. -/
structure Diagnostic where
  message : String
deriving DecidableEq, Repr

/-- `TextDocument.create(uri, languageId, version, content)` as called at
`src/index.ts:91-93`: `uri = "file://" + absFilePath`, `languageId = fileExt`,
`version = 0`, `text = src`. -/
structure TextDoc where
  uri : String
  languageId : String
  version : Nat
  text : String
deriving DecidableEq, Repr

/-- The intermediate record built per target file at `src/index.ts:71-80`. -/
structure FileRecord where
  absFilePath : String
  fileExt : String
  src : String
deriving DecidableEq, Repr

/-- Observable actions of one run, in order of occurrence. -/
inductive Event where
  | docLoaded (uri : String)
  | acquireRegions
  | acquireScriptRegions
  | validated (uri : String)
  | reportError (uri : String) (message : String)
  | tick
  | stopNotice
  | logException
  | disposeRegions
  | disposeScriptRegions
  | summary (errors : Nat) (docs : Nat)
  | exit (code : Nat)
deriving DecidableEq, Repr

/-- The `excludeDir` option is `string | string[]` in TypeScript. -/
inductive ExcludeDirOpt where
  | str (s : String)
  | arr (l : List String)
deriving DecidableEq, Repr

/-- The `Options` interface of `src/index.ts:20-28`, with the destructuring
defaults of line 40 already applied (`onlyTemplate`, `onlyTypeScript`,
`failExit` default to `false`; `files` defaults to `[]`). -/
structure Options where
  workspace : String
  srcDir : Option String
  onlyTemplate : Bool
  onlyTypeScript : Bool
  excludeDir : Option ExcludeDirOpt
  failExit : Bool
  files : List String
deriving Repr

/-- `typeof excludeDir === "string" ? [excludeDir] : excludeDir`
(`src/index.ts:45`).  `Option.none` is JavaScript `undefined`; note that an
empty array stays `Option.some []` (a truthy value in JavaScript). -/
def excludeDirsOf : Option ExcludeDirOpt → Option (List String)
  | Option.none => Option.none
  | Option.some (ExcludeDirOpt.str s) => Option.some [s]
  | Option.some (ExcludeDirOpt.arr l) => Option.some l

/-- The `Source` interface of `src/index.ts:30-35`. -/
structure Source where
  docs : List TextDoc
  workspace : String
  onlyTemplate : Bool
  failExit : Bool

/-- The two external diagnostic producers constructed at `src/index.ts:114-119`:
`vueMode.doValidation` (always present) and `scriptMode.doValidation` (the code
guards on its truthiness, so it is optional).  An invocation may throw, which
we model with `Except`. -/
structure Producers where
  vueValidate : TextDoc → Except String (List Diagnostic)
  scriptValidate : Option (TextDoc → Except String (List Diagnostic))

/-- Errors that escape `traverse` (`src/index.ts:51-96`): a thrown `RegExp`
constructor (malformed exclusion pattern) or a failed `readFile`. -/
inductive TraverseError where
  | exclusionConfig
  | fileRead (path : String)
deriving DecidableEq, Repr

/-! ### A model of the host regular-expression engine

`traverse` builds `new RegExp("^(?:" + dirs.join("|") + ").*$")` without
escaping (`src/index.ts:64-68`) and `isTs`/`hasScriptTag`/`isImportOtherTs`
use fixed literal patterns (`src/index.ts:180-190`).  The engine itself is
host-library code, not part of this repository.  We model exactly the
fragment the program exercises: alternation via the top-level `|`, literal
characters, and the `.` wildcard (which in the host engine matches any
character except a line terminator).  Any other metacharacter appearing in an
interpolated exclusion entry is treated as an unsupported pattern construct
whose compilation throws, as the host engine does for a pattern such as a
lone `(`. -/

/-- Characters the host engine's `.` wildcard does not match
(line terminators). -/
def isLineTerm (c : Char) : Bool :=
  c == '\n' || c == '\r' || c == '\u2028' || c == '\u2029'

/-- One token of the supported regular-expression fragment language. -/
inductive RTok where
  | lit (c : Char)
  | any
deriving DecidableEq, Repr

/-- Metacharacters outside the supported fragment language; an interpolated
exclusion entry containing one of these makes pattern compilation fail in
this model (for a lone `(` the host engine likewise throws a syntax error). -/
def isBadRegexChar (c : Char) : Bool :=
  c == '(' || c == ')' || c == '[' || c == ']' || c == '{' || c == '}' ||
  c == '*' || c == '+' || c == '?' || c == '\\' || c == '^' || c == '$'

/-- Parse one alternative of the alternation into tokens; `.` becomes the
wildcard, unsupported metacharacters abort compilation. -/
def parseFragment : List Char → Option (List RTok)
  | [] => Option.some []
  | c :: cs =>
    if c == '.' then (parseFragment cs).map fun ts => RTok.any :: ts
    else if isBadRegexChar c then Option.none
    else (parseFragment cs).map fun ts => RTok.lit c :: ts

/-- Match a token list against the front of a character list, returning the
unconsumed remainder on success.  The wildcard refuses line terminators, as
the host engine's `.` does. -/
def toksMatch : List RTok → List Char → Option (List Char)
  | [], s => Option.some s
  | _ :: _, [] => Option.none
  | RTok.lit c :: ts, x :: xs => if c == x then toksMatch ts xs else Option.none
  | RTok.any :: ts, x :: xs => if isLineTerm x then Option.none else toksMatch ts xs

/-- Split a character list at every character satisfying `p` (the separators
are dropped; `n` separators yield `n+1` pieces). -/
def splitBy (p : Char → Bool) : List Char → List (List Char)
  | [] => [[]]
  | c :: rest =>
    if p c then [] :: splitBy p rest
    else
      match splitBy p rest with
      | [] => [[c]]
      | l :: ls => (c :: l) :: ls

/-- Interpose a separator character between the pieces
(JavaScript `Array.prototype.join`). -/
def joinWith (sep : Char) : List (List Char) → List Char
  | [] => []
  | [l] => l
  | l :: ls => l ++ sep :: joinWith sep ls

/-- Compile the exclusion pattern `^(?:" + resolvedDirs.join("|") + ").*$`
(`src/index.ts:65,67`): join the resolved entries with `|`, split the result
back at every top-level `|` (this is how the engine reads the alternation),
and parse each alternative.  `Option.none` models the thrown construction
error for an unsupported pattern. -/
def buildExcludePattern (resolvedDirs : List String) : Option (List (List RTok)) :=
  (splitBy (fun c => c == '|') (joinWith '|' (resolvedDirs.map String.data))).mapM parseFragment

/-- `new RegExp("^(?:" + ... + ").*$").test(candidate)`: some alternative
matches at the start of the candidate and the trailing `.*$` can consume the
rest, i.e. the remainder holds no line terminator. -/
def matchesExclude (pat : List (List RTok)) (candidate : String) : Bool :=
  pat.any fun ts =>
    match toksMatch ts candidate.data with
    | Option.none => false
    | Option.some rest => rest.all fun c => !isLineTerm c

/-! ### The single-line tag heuristics (`src/index.ts:180-190`)

Each of the three patterns is a chain of literal pieces separated by `.*`
gaps.  Because neither the literals nor the `.` wildcard match a line
terminator, the whole match lies within one line of the source text: the
test succeeds exactly when some line contains the pieces in order. -/

/-- Do the pieces occur, in order and non-overlapping, inside the line?
Taking the earliest occurrence of each piece is complete because it leaves
the longest possible remainder for the later pieces. -/
def chopAfter (pat : List Char) : List Char → Option (List Char)
  | [] => if pat.isEmpty then Option.some [] else Option.none
  | c :: rest =>
    if pat.isPrefixOf (c :: rest) then Option.some ((c :: rest).drop pat.length)
    else chopAfter pat rest

/-- Fold `chopAfter` over the pieces. -/
def containsInOrder : List (List Char) → List Char → Bool
  | [], _ => true
  | p :: ps, s =>
    match chopAfter p s with
    | Option.none => false
    | Option.some rest => containsInOrder ps rest

/-- The unanchored test of a `piece1.*piece2...` pattern against a whole
source text: some line contains the pieces in order. -/
def testLineRegex (pieces : List (List Char)) (src : String) : Bool :=
  (splitBy isLineTerm src.data).any fun line => containsInOrder pieces line

/-- `/.*\<script.*\>/.test(src)` (`src/index.ts:180-182`). -/
def hasScriptTag (src : String) : Bool :=
  testLineRegex [("<script").data, (">").data] src

/-- `/.*\<script.*lang="tsx?".*\>/.test(src)` (`src/index.ts:184-186`).
The optional `x?` unfolds into the two literal alternatives. -/
def isTs (src : String) : Bool :=
  testLineRegex [("<script").data, ("lang=\"ts\"").data, (">").data] src
  || testLineRegex [("<script").data, ("lang=\"tsx\"").data, (">").data] src

/-- `/.*\<script.*src=".*".*\>/.test(src)` (`src/index.ts:188-190`). -/
def isImportOtherTs (src : String) : Bool :=
  testLineRegex [("<script").data, ("src=\"").data, ("\"").data, (">").data] src

/-- The strict-only filter predicate of `src/index.ts:83-88`: keep a file
when its extension is not `vue`, or it has no script tag; otherwise keep it
exactly when `isTs` or `isImportOtherTs` holds. -/
def isEligibleTs (fileExt src : String) : Bool :=
  if fileExt != "vue" || !hasScriptTag src then true
  else isTs src || isImportOtherTs src

/-- Last piece of a split. -/
def lastPart : List (List Char) → List Char
  | [] => []
  | [l] => l
  | _ :: ls => lastPart ls

/-- Modelled from the spec: `extractTargetFileExtension` lives in
`src/file-util.ts`, which is not among the provided sources.  The spec's
`FileRecord` carries an `extensionTag`; we model extraction as the substring
after the final dot of the path (the whole path when it has no dot). -/
def extractTargetFileExtension (p : String) : String :=
  String.mk (lastPart (splitBy (fun c => c == '.') p.data))

/-! ### File selection and loading (`traverse`, `src/index.ts:51-96`) -/

/-- Lines 57-62 of `src/index.ts`: take the explicit `changedFiles` when
non-empty, otherwise the glob scan result (the scan itself is host code; its
result is the `globbed` parameter). -/
def pickTargets (changedFiles globbed : List String) : List String :=
  if changedFiles.length != 0 then changedFiles else globbed

/-- Lines 57-69 of `src/index.ts`: pick the candidates, then apply the
exclusion filter when `excludeDirs` is defined.  The `RegExp` is constructed
inside the filter callback, so with an empty candidate list a malformed
pattern never throws. -/
def selectTargets (resolve : String → String) (globbed : List String)
    (changedFiles : List String) (excludeDirs : Option (List String)) :
    Except TraverseError (List String) :=
  match excludeDirs with
  | Option.none => Except.ok (pickTargets changedFiles globbed)
  | Option.some dirs =>
    match pickTargets changedFiles globbed with
    | [] => Except.ok []
    | _ :: _ =>
      match buildExcludePattern (dirs.map resolve) with
      | Option.none => Except.error TraverseError.exclusionConfig
      | Option.some pat =>
        Except.ok ((pickTargets changedFiles globbed).filter fun f => !matchesExclude pat f)

/-- Lines 71-80 of `src/index.ts`: read every target file (`fs` models the
file system; `Option.none` is a read failure, which rejects the whole
`Promise.all` and propagates). -/
def readAll (fs : String → Option String) : List String → Except TraverseError (List FileRecord)
  | [] => Except.ok []
  | p :: rest =>
    match fs p with
    | Option.none => Except.error (TraverseError.fileRead p)
    | Option.some src =>
      match readAll fs rest with
      | Except.error e => Except.error e
      | Except.ok rs =>
        Except.ok ({ absFilePath := p, fileExt := extractTargetFileExtension p, src := src } :: rs)

/-- Lines 82-93 of `src/index.ts`: the strict-only filter followed by
document creation. -/
def mkDocs (onlyTypeScript : Bool) (files0 : List FileRecord) : List TextDoc :=
  (if onlyTypeScript then files0.filter fun r => isEligibleTs r.fileExt r.src else files0).map
    fun r =>
      { uri := ("file://") ++ r.absFilePath, languageId := r.fileExt, version := 0, text := r.src }

/-- `traverse` (`src/index.ts:51-96`): select, load, classify, build
documents. -/
def traverse (fs : String → Option String) (resolve : String → String) (globbed : List String)
    (onlyTypeScript : Bool) (changedFiles : List String) (excludeDirs : Option (List String)) :
    Except TraverseError (List TextDoc) :=
  match selectTargets resolve globbed changedFiles excludeDirs with
  | Except.error e => Except.error e
  | Except.ok targets =>
    match readAll fs targets with
    | Except.error e => Except.error e
    | Except.ok files0 => Except.ok (mkDocs onlyTypeScript files0)

/-! ### The validation loop (`getDiagnostics`, `src/index.ts:98-178`) -/

/-- Lines 126-131 of `src/index.ts`: per-document validation.  The template
producer is consulted first and unconditionally; the script producer only
when `onlyTemplate` is unset and it offers `doValidation`; the results are
concatenated, template diagnostics first.  A throw from either producer
escapes to the enclosing catch (`Except.error` here). -/
def validateDoc (ps : Producers) (onlyTemplate : Bool) (doc : TextDoc) :
    Except String (List Diagnostic) :=
  match ps.vueValidate doc with
  | Except.error e => Except.error e
  | Except.ok vueTplResults =>
    match onlyTemplate, ps.scriptValidate with
    | false, Option.some f =>
      match f doc with
      | Except.error e => Except.error e
      | Except.ok scriptResults => Except.ok (vueTplResults ++ scriptResults)
    | _, _ => Except.ok (vueTplResults ++ [])

/-- Result of the `for (const doc of docs)` loop: the events it emitted, the
values of the `hasError` and `totalErrors` variables when it ended, and
whether it ended by throwing. -/
structure LoopResult where
  events : List Event
  hasError : Bool
  totalErrors : Nat
  exn : Bool
deriving DecidableEq, Repr

/-- Lines 125-166 of `src/index.ts`: validate each document in order,
report its diagnostics immediately, tick the progress bar, and break with the
stop notice once `hasError && failExit`.  A producer throw ends the loop with
`exn = true` (the catch block outside adds the logging).  When a document's
result list is empty, `hasError` and `totalErrors` are left unchanged, which
the unconditional `||`/`+` below also do. -/
def runDocs (ps : Producers) (onlyTemplate failExit : Bool) :
    List TextDoc → Bool → Nat → LoopResult
  | [], hasError, totalErrors => ⟨[], hasError, totalErrors, false⟩
  | doc :: rest, hasError, totalErrors =>
    match validateDoc ps onlyTemplate doc with
    | Except.error _ => ⟨[Event.validated doc.uri], hasError, totalErrors, true⟩
    | Except.ok results =>
      if (hasError || !results.isEmpty) && failExit then
        ⟨Event.validated doc.uri ::
            (results.map fun r => Event.reportError doc.uri r.message)
            ++ [Event.tick, Event.stopNotice],
          hasError || !results.isEmpty, totalErrors + results.length, false⟩
      else
        ⟨(Event.validated doc.uri ::
            (results.map fun r => Event.reportError doc.uri r.message) ++ [Event.tick])
            ++ (runDocs ps onlyTemplate failExit rest (hasError || !results.isEmpty)
                (totalErrors + results.length)).events,
          (runDocs ps onlyTemplate failExit rest (hasError || !results.isEmpty)
            (totalErrors + results.length)).hasError,
          (runDocs ps onlyTemplate failExit rest (hasError || !results.isEmpty)
            (totalErrors + results.length)).totalErrors,
          (runDocs ps onlyTemplate failExit rest (hasError || !results.isEmpty)
            (totalErrors + results.length)).exn⟩

/-- Outcome of one `getDiagnostics` run: its event trace and the final values
the code computes in the `finally` block. -/
structure RunOutcome where
  events : List Event
  hasError : Bool
  totalErrors : Nat
  exitCode : Nat
  exceptionCaught : Bool
deriving DecidableEq, Repr

/-- `getDiagnostics` (`src/index.ts:98-178`).  The two caching layers are
acquired before the `try` (lines 99-105).  Constructing the service host and
the two producers happens inside the `try` (lines 109-119); `setup` models
its outcome.  The catch block (167-169) sets `hasError` and logs; the finally
block (170-177) disposes both caches, prints the summary when `failExit` is
unset, and exits with `hasError ? 1 : 0`. -/
def getDiagnostics (setup : Except String Producers) (s : Source) : RunOutcome :=
  match setup with
  | Except.error _ =>
    { events := [Event.acquireRegions, Event.acquireScriptRegions, Event.logException,
        Event.disposeRegions, Event.disposeScriptRegions] ++
        (if !s.failExit then [Event.summary 0 s.docs.length] else []) ++ [Event.exit 1],
      hasError := true, totalErrors := 0, exitCode := 1, exceptionCaught := true }
  | Except.ok ps =>
    let r := runDocs ps s.onlyTemplate s.failExit s.docs false 0
    let hasError := r.hasError || r.exn
    { events := [Event.acquireRegions, Event.acquireScriptRegions] ++ r.events ++
        (if r.exn then [Event.logException] else []) ++
        [Event.disposeRegions, Event.disposeScriptRegions] ++
        (if !s.failExit then [Event.summary r.totalErrors s.docs.length] else []) ++
        [Event.exit (if hasError then 1 else 0)],
      hasError := hasError, totalErrors := r.totalErrors,
      exitCode := if hasError then 1 else 0, exceptionCaught := r.exn }

/-- `check` (`src/index.ts:39-49`): traverse, then run `getDiagnostics`.
A `traverse` failure (read failure or malformed exclusion pattern) is not
caught here and propagates.  The `docLoaded` events record that every
document returned by `traverse` was read and constructed before validation
began.  The `globbed` parameter stands for the `globSync` result over
`srcDir` with the pattern derived from `validLanguages`; the scan itself is
host code. -/
def check (fs : String → Option String) (resolve : String → String) (globbed : List String)
    (setup : Except String Producers) (options : Options) : Except TraverseError RunOutcome :=
  match traverse fs resolve globbed options.onlyTypeScript options.files
      (excludeDirsOf options.excludeDir) with
  | Except.error e => Except.error e
  | Except.ok docs =>
    let out := getDiagnostics setup
      { docs := docs, workspace := options.workspace,
        onlyTemplate := options.onlyTemplate, failExit := options.failExit }
    Except.ok { out with events := (docs.map fun d => Event.docLoaded d.uri) ++ out.events }

/-! ### Observation helpers over event traces -/

/-- The documents validated in a trace, in order. -/
def validatedUris (l : List Event) : List String :=
  l.filterMap fun e =>
    match e with
    | Event.validated u => Option.some u
    | _ => Option.none

/-- Is this event the summary line? -/
def isSummaryEvent : Event → Bool
  | Event.summary _ _ => true
  | _ => false

/-- Is this event the disposal of the document-regions cache? -/
def isDisposeRegionsEvent : Event → Bool
  | Event.disposeRegions => true
  | _ => false

/-- Is this event the disposal of the script-region-documents cache? -/
def isDisposeScriptRegionsEvent : Event → Bool
  | Event.disposeScriptRegions => true
  | _ => false

/-- Is this event the acquisition of the document-regions cache? -/
def isAcquireRegionsEvent : Event → Bool
  | Event.acquireRegions => true
  | _ => false

/-- Is this event the acquisition of the script-region-documents cache? -/
def isAcquireScriptRegionsEvent : Event → Bool
  | Event.acquireScriptRegions => true
  | _ => false

/-- Entries consisting only of characters with no meaning to the host regex
engine (no wildcard, no alternation separator, no unsupported
metacharacter): such an entry is matched literally. -/
def isLiteralFragment (s : String) : Bool :=
  s.data.all fun c => !(c == '.') && !(c == '|') && !isBadRegexChar c

/-! ### Concrete fixtures used by the closed theorems below -/

/-- Fixture: the document built from `/m/a.vue` with source text `s`. -/
def docA : TextDoc :=
  { uri := "file:///m/a.vue", languageId := "vue", version := 0, text := "s" }

/-- Fixture: the document built from `/m/b.vue` with source text `s`. -/
def docB : TextDoc :=
  { uri := "file:///m/b.vue", languageId := "vue", version := 0, text := "s" }

/-- Fixture: producers that report one template diagnostic for `/m/a.vue`
and none otherwise; no script validation capability. -/
def psFailA : Producers :=
  { vueValidate := (fun d =>
      if d.uri == ("file:///m/a.vue") then Except.ok [{ message := "e" }]
      else Except.ok []),
    scriptValidate := Option.none }

/-- Fixture: producers whose template validation throws on every document. -/
def psThrow : Producers :=
  { vueValidate := (fun _ => Except.error ("boom")), scriptValidate := Option.none }

/-- Fixture: a fail-fast source over the two documents. -/
def srcAB : Source :=
  { docs := [docA, docB], workspace := "w", onlyTemplate := false, failExit := true }

/-- Fixture: a non-fail-fast source over the first document only. -/
def srcA : Source :=
  { docs := [docA], workspace := "w", onlyTemplate := false, failExit := false }

/-- Fixture: options selecting the two files explicitly, with fail-fast. -/
def optsAB : Options :=
  { workspace := "w", srcDir := Option.none, onlyTemplate := false,
    onlyTypeScript := false, excludeDir := Option.none, failExit := true,
    files := ["/m/a.vue", "/m/b.vue"] }

/-- Fixture: the full event trace of the fail-fast run of `optsAB` against
`psFailA` over a file system where every file reads as `s`. -/
def traceC1 : List Event :=
  [Event.docLoaded ("file:///m/a.vue"), Event.docLoaded ("file:///m/b.vue"),
   Event.acquireRegions, Event.acquireScriptRegions,
   Event.validated ("file:///m/a.vue"),
   Event.reportError ("file:///m/a.vue") ("e"),
   Event.tick, Event.stopNotice,
   Event.disposeRegions, Event.disposeScriptRegions, Event.exit 1]

/-! ### Helper lemmas -/

/-- A token list made purely of literals matches exactly the corresponding
literal prefix and leaves the rest. -/
theorem toksMatch_lits (l : List Char) : ∀ s : List Char,
    toksMatch (l.map RTok.lit) s =
      if l.isPrefixOf s then Option.some (s.drop l.length) else Option.none := by
  induction l with
  | nil => intro s; simp [toksMatch, List.isPrefixOf]
  | cons c l ih =>
    intro s
    cases s with
    | nil => simp [toksMatch, List.isPrefixOf]
    | cons x xs =>
      by_cases h : c = x
      · subst h
        simp [toksMatch, List.isPrefixOf, ih xs]
      · simp [toksMatch, List.isPrefixOf, h]

/-- Parsing a fragment with no special characters yields pure literals. -/
theorem parseFragment_literal (l : List Char)
    (h : ∀ c ∈ l, (c == '.') = false ∧ isBadRegexChar c = false) :
    parseFragment l = Option.some (l.map RTok.lit) := by
  induction l with
  | nil => simp [parseFragment]
  | cons c cs ih =>
    have hc := h c (List.mem_cons_self c cs)
    rw [parseFragment, hc.1, hc.2]
    simp only [Bool.false_eq_true, if_false]
    rw [ih fun x hx => h x (List.mem_cons_of_mem c hx)]
    rfl

/-- Splitting a list without separators returns it whole. -/
theorem splitBy_eq_single (p : Char → Bool) (l : List Char)
    (h : ∀ c ∈ l, p c = false) : splitBy p l = [l] := by
  induction l with
  | nil => rfl
  | cons c rest ih =>
    have hc := h c (List.mem_cons_self c rest)
    rw [splitBy, hc]
    simp only [Bool.false_eq_true, if_false]
    rw [ih fun x hx => h x (List.mem_cons_of_mem c hx)]

/-- Splitting a list that starts with a separator-free block followed by a
separator peels off the block. -/
theorem splitBy_block (p : Char → Bool) (sep : Char) (hsep : p sep = true)
    (a : List Char) (ha : ∀ c ∈ a, p c = false) (r : List Char) :
    splitBy p (a ++ sep :: r) = a :: splitBy p r := by
  induction a with
  | nil => simp [splitBy, hsep]
  | cons c a ih =>
    have hc := ha c (List.mem_cons_self c a)
    rw [List.cons_append, splitBy, hc]
    simp only [Bool.false_eq_true, if_false]
    rw [ih fun x hx => ha x (List.mem_cons_of_mem c hx)]

/-- Splitting undoes joining when no piece contains the separator and the
piece list is non-empty (the empty list joins to the empty string, which
splits back to one empty piece instead). -/
theorem splitBy_joinWith (sep : Char) (ls : List (List Char)) (hne : ls ≠ [])
    (h : ∀ l ∈ ls, ∀ c ∈ l, (c == sep) = false) :
    splitBy (fun c => c == sep) (joinWith sep ls) = ls := by
  induction ls with
  | nil => exact absurd rfl hne
  | cons l ls ih =>
    cases ls with
    | nil =>
      rw [joinWith]
      exact splitBy_eq_single _ _ (h l (List.mem_cons_self l []))
    | cons l2 ls2 =>
      have hih := ih (fun hx => List.noConfusion hx)
        (fun x hx => h x (List.mem_cons_of_mem l hx))
      rw [show joinWith sep (l :: l2 :: ls2) = l ++ sep :: joinWith sep (l2 :: ls2) from rfl,
          splitBy_block (fun c => c == sep) sep (by simp) l
            (h l (List.mem_cons_self l (l2 :: ls2))), hih]

/-- Unpack `isLiteralFragment` into its per-character facts. -/
theorem isLiteralFragment_chars (d : String) (h : isLiteralFragment d = true) :
    ∀ c ∈ d.data, (c == '.') = false ∧ (c == '|') = false ∧ isBadRegexChar c = false := by
  intro c hc
  rw [isLiteralFragment, List.all_eq_true] at h
  have hcd := h c hc
  simp only [Bool.and_eq_true, Bool.not_eq_true'] at hcd
  exact ⟨hcd.1.1, hcd.1.2, hcd.2⟩

/-- Parsing every metacharacter-free entry succeeds with literal tokens. -/
theorem mapM_parseFragment_lits (ds : List String)
    (h : ∀ d ∈ ds, isLiteralFragment d = true) :
    (ds.map String.data).mapM parseFragment
      = Option.some (ds.map fun d => d.data.map RTok.lit) := by
  induction ds with
  | nil => rfl
  | cons d ds ih =>
    rw [List.map_cons, List.mapM_cons,
        parseFragment_literal d.data fun c hc =>
          ⟨(isLiteralFragment_chars d (h d (List.mem_cons_self d ds)) c hc).1,
           (isLiteralFragment_chars d (h d (List.mem_cons_self d ds)) c hc).2.2⟩,
        ih fun x hx => h x (List.mem_cons_of_mem d hx)]
    rfl

/-- Compiling the exclusion pattern from metacharacter-free entries succeeds
and produces the literal token lists of the entries themselves. -/
theorem buildExcludePattern_literal (dirs : List String) (hne : dirs ≠ [])
    (h : ∀ d ∈ dirs, isLiteralFragment d = true) :
    buildExcludePattern dirs = Option.some (dirs.map fun d => d.data.map RTok.lit) := by
  rw [buildExcludePattern,
      splitBy_joinWith '|' (dirs.map String.data) (by simpa using hne)
        (by
          intro l hl c hc
          rcases List.mem_map.mp hl with ⟨d, hd, rfl⟩
          exact (isLiteralFragment_chars d (h d hd) c hc).2.1)]
  exact mapM_parseFragment_lits dirs h

/-- Everything in a dropped list was in the original list. -/
theorem all_drop (p : Char → Bool) (l : List Char) (n : Nat)
    (h : l.all p = true) : (l.drop n).all p = true := by
  rw [List.all_eq_true] at h ⊢
  intro x hx
  exact h x (List.drop_subset n l hx)

/-- Against a candidate free of line terminators, a pure-literal pattern
tests exactly literal string-prefix membership in the alternation. -/
theorem matchesExclude_literal (dirs : List String) (cand : String)
    (hcand : cand.data.all (fun c => !isLineTerm c) = true) :
    matchesExclude (dirs.map fun d => d.data.map RTok.lit) cand
      = dirs.any fun d => d.data.isPrefixOf cand.data := by
  induction dirs with
  | nil => rfl
  | cons d ds ih =>
    rw [matchesExclude] at ih
    rw [List.map_cons, matchesExclude, List.any_cons, List.any_cons, toksMatch_lits]
    cases hp : d.data.isPrefixOf cand.data with
    | true => simp [hp, all_drop _ _ _ hcand]
    | false => simp [hp, ih]

/-- A successful `readAll` preserves the paths, in order. -/
theorem readAll_ok_paths (fs : String → Option String) :
    ∀ (l : List String) (rs : List FileRecord), readAll fs l = Except.ok rs →
      rs.map FileRecord.absFilePath = l := by
  intro l
  induction l with
  | nil => intro rs h; cases h; rfl
  | cons p rest ih =>
    intro rs h
    rw [readAll] at h
    cases hf : fs p with
    | none => rw [hf] at h; cases h
    | some src =>
      rw [hf] at h
      cases hr : readAll fs rest with
      | error e => rw [hr] at h; cases h
      | ok rs0 =>
        rw [hr] at h
        cases h
        rw [List.map_cons, ih rs0 hr]

/-! ### Claim C2 -/

/-- C2 is false as stated: with a non-empty explicit file list the document
set is NOT the list itself regardless of `excludeDirs` — the exclusion filter
still applies to explicit files.  Here the single explicit file sits under the
excluded directory and the run yields zero documents, while the same run
without the exclusion yields exactly that file's document. -/
theorem c2_counterexample :
    traverse (fun _ => Option.some ("x")) (fun p => p) ["/g/scan.vue"] false
        ["/ex/a.vue"] (Option.some ["/ex"]) = Except.ok []
    ∧ traverse (fun _ => Option.some ("x")) (fun p => p) ["/g/scan.vue"] false
        ["/ex/a.vue"] Option.none
      = Except.ok [{ uri := "file:///ex/a.vue", languageId := "vue", version := 0,
                     text := "x" }] :=
  ⟨rfl, rfl⟩

/-- C2 (amended): when `explicitFiles` is non-empty, directory scanning is
bypassed — the run result is independent of the scan result — and, when no
exclusion is configured and strict-only mode is off, the document set is
exactly the explicit list (in order, one document per listed path); exclusion
filtering and strict-only classification, however, still apply to explicit
files. -/
theorem c2_theorem (fs : String → Option String) (resolve : String → String)
    (g1 g2 : List String) (ot : Bool) (files : List String)
    (excl : Option (List String)) (hne : files ≠ []) :
    traverse fs resolve g1 ot files excl = traverse fs resolve g2 ot files excl
    ∧ (∀ docs, excl = Option.none → ot = false →
        traverse fs resolve g1 ot files excl = Except.ok docs →
        docs.map TextDoc.uri = files.map fun p => ("file://") ++ p) := by
  have hpick : ∀ g : List String, pickTargets files g = files := by
    intro g
    rw [pickTargets, if_pos]
    simp only [bne_iff_ne, ne_eq, List.length_eq_zero]
    exact hne
  have hselg : ∀ g : List String,
      selectTargets resolve g files excl = selectTargets resolve g1 files excl := by
    intro g
    rw [selectTargets.eq_def, selectTargets.eq_def, hpick, hpick]
  constructor
  · rw [traverse.eq_def, traverse.eq_def, hselg g2]
  · intro docs hexcl hot htr
    subst hexcl
    subst hot
    have hsel : selectTargets resolve g1 files Option.none = Except.ok files := by
      show Except.ok (pickTargets files g1) = Except.ok files
      rw [hpick]
    have htrav_eq : traverse fs resolve g1 false files Option.none =
        match readAll fs files with
        | Except.error e => Except.error e
        | Except.ok files0 => Except.ok (mkDocs false files0) := by
      rw [traverse.eq_def, hsel]
    rw [htrav_eq] at htr
    cases hr : readAll fs files with
    | error e => rw [hr] at htr; cases htr
    | ok rs =>
      rw [hr] at htr
      cases htr
      rw [mkDocs]
      simp only [Bool.false_eq_true, if_false, List.map_map]
      have hpaths := readAll_ok_paths fs files rs hr
      calc rs.map (fun r => TextDoc.uri
              { uri := ("file://") ++ r.absFilePath, languageId := r.fileExt,
                version := 0, text := r.src })
          = (rs.map FileRecord.absFilePath).map (fun p => ("file://") ++ p) := by
            rw [List.map_map]; rfl
        _ = files.map fun p => ("file://") ++ p := by rw [hpaths]

/-- Witness for C2 (amended) at a concrete run: two explicit files, two
different scan results, no exclusion, strict-only off. -/
theorem c2_witness :
    traverse (fun _ => Option.some ("x")) (fun p => p) ["/g/a.vue"] false
        ["/p/a.vue", "/p/b.vue"] Option.none
      = traverse (fun _ => Option.some ("x")) (fun p => p) ["/g/other.vue"] false
        ["/p/a.vue", "/p/b.vue"] Option.none
    ∧ (∀ docs, (Option.none : Option (List String)) = Option.none → false = false →
        traverse (fun _ => Option.some ("x")) (fun p => p) ["/g/a.vue"] false
          ["/p/a.vue", "/p/b.vue"] Option.none = Except.ok docs →
        docs.map TextDoc.uri = ["/p/a.vue", "/p/b.vue"].map fun p => ("file://") ++ p) :=
  c2_theorem (fun _ => Option.some ("x")) (fun p => p) ["/g/a.vue"] ["/g/other.vue"]
    false ["/p/a.vue", "/p/b.vue"] Option.none (by decide)

/-! ### Claim C5 -/

/-- C5 is false as stated: dropping is not by literal string prefix.  The
resolved entry `/a.c` is interpolated unescaped, so its `.` acts as a
wildcard: the candidate `/axc/f.vue` does not begin with the literal string
`/a.c`, yet it is dropped from the file set. -/
theorem c5_counterexample :
    (("/a.c") : String).data.isPrefixOf (("/axc/f.vue") : String).data = false
    ∧ traverse (fun _ => Option.some ("x")) (fun p => p) [] false
        ["/axc/f.vue"] (Option.some ["/a.c"]) = Except.ok [] :=
  ⟨by decide, rfl⟩

/-- C5 (amended): each `excludeDirs` entry is resolved to an absolute path
and interpolated into the anchored alternation pattern as a regex fragment,
not as a quoted literal.  Provided every resolved entry is free of regex
metacharacters and the candidates hold no line terminator, a candidate is
dropped exactly when some resolved entry is a literal string prefix of it
(not a path-segment boundary), so the surviving file set contains no path
that begins with an excluded prefix — excluding `src/foo` also removes
`src/foobar`. -/
theorem c5_theorem (resolve : String → String) (globbed changedFiles : List String)
    (dirs : List String) (targets : List String)
    (hne : dirs ≠ [])
    (hlit : ∀ d ∈ dirs, isLiteralFragment (resolve d) = true)
    (hterm : ∀ f ∈ pickTargets changedFiles globbed,
      f.data.all (fun c => !isLineTerm c) = true)
    (hsel : selectTargets resolve globbed changedFiles (Option.some dirs)
      = Except.ok targets) :
    targets = (pickTargets changedFiles globbed).filter
        (fun f => !(dirs.any fun d => (resolve d).data.isPrefixOf f.data))
    ∧ ∀ f ∈ targets, ∀ d ∈ dirs, (resolve d).data.isPrefixOf f.data = false := by
  have hlit2 : ∀ d ∈ dirs.map resolve, isLiteralFragment d = true := by
    intro d hd
    rcases List.mem_map.mp hd with ⟨x, hx, rfl⟩
    exact hlit x hx
  have hb := buildExcludePattern_literal (dirs.map resolve)
    (by simpa using hne) hlit2
  have hpred : ∀ f : String, f.data.all (fun c => !isLineTerm c) = true →
      matchesExclude ((dirs.map resolve).map fun d => d.data.map RTok.lit) f
        = dirs.any fun d => (resolve d).data.isPrefixOf f.data := by
    intro f hf
    rw [matchesExclude_literal (dirs.map resolve) f hf, List.any_map]
    rfl
  have hsel2 : (match pickTargets changedFiles globbed with
      | [] => (Except.ok [] : Except TraverseError (List String))
      | _ :: _ =>
        match buildExcludePattern (dirs.map resolve) with
        | Option.none => Except.error TraverseError.exclusionConfig
        | Option.some pat =>
          Except.ok ((pickTargets changedFiles globbed).filter fun f => !matchesExclude pat f))
      = Except.ok targets := hsel
  have hmain : targets = (pickTargets changedFiles globbed).filter
      (fun f => !(dirs.any fun d => (resolve d).data.isPrefixOf f.data)) := by
    cases ht : pickTargets changedFiles globbed with
    | nil =>
      rw [ht] at hsel2
      cases hsel2
      rfl
    | cons t ts =>
      rw [ht, hb] at hsel2
      have htargets : targets = (t :: ts).filter
          (fun f => !matchesExclude ((dirs.map resolve).map fun d => d.data.map RTok.lit) f) := by
        cases hsel2
        rfl
      rw [htargets]
      refine List.filter_congr ?_
      intro f hf
      have hfterm : f.data.all (fun c => !isLineTerm c) = true := by
        have hx := hterm f
        rw [ht] at hx
        exact hx hf
      rw [hpred f hfterm]
  refine ⟨hmain, ?_⟩
  intro f hf d hd
  rw [hmain] at hf
  have hnone := List.of_mem_filter hf
  rw [Bool.not_eq_true'] at hnone
  cases hres : (resolve d).data.isPrefixOf f.data with
  | false => rfl
  | true =>
    exfalso
    have hany : (dirs.any fun d => (resolve d).data.isPrefixOf f.data) = true := by
      rw [List.any_eq_true]
      exact ⟨d, hd, hres⟩
    rw [hany] at hnone
    cases hnone

/-- Witness for C5 (amended): excluding `/src/foo` removes
`/src/foobar/x.vue` and keeps `/other/y.vue`. -/
theorem c5_witness :
    (["/other/y.vue"] : List String)
      = (pickTargets ["/src/foobar/x.vue", "/other/y.vue"] []).filter
        (fun f => !((["/src/foo"] : List String).any
          fun d => ((fun p : String => p) d).data.isPrefixOf f.data))
    ∧ ∀ f ∈ (["/other/y.vue"] : List String), ∀ d ∈ (["/src/foo"] : List String),
        ((fun p : String => p) d).data.isPrefixOf f.data = false :=
  c5_theorem (fun p => p) [] ["/src/foobar/x.vue", "/other/y.vue"] ["/src/foo"]
    ["/other/y.vue"] (by decide) (by decide) (by decide) rfl

/-! ### Claim C4 -/

/-- C4: under strict-only mode, a file whose extension tag is not the
component format (`vue`) is eligible; a `vue` file with no script-section
marker is eligible; one whose script tag carries `lang="ts"` or `lang="tsx"`
is eligible; one whose script tag carries a `src="…"` reference is eligible;
any other `vue` file (plain inline non-strict script) is not eligible, and
`traverse` removes it before document creation, so every document it returns
satisfies the eligibility predicate. -/
theorem c4_theorem (ext src : String) :
    (ext ≠ "vue" → isEligibleTs ext src = true)
    ∧ (hasScriptTag src = false → isEligibleTs ext src = true)
    ∧ (isTs src = true → isEligibleTs ext src = true)
    ∧ (isImportOtherTs src = true → isEligibleTs ext src = true)
    ∧ (ext = "vue" → hasScriptTag src = true → isTs src = false →
        isImportOtherTs src = false → isEligibleTs ext src = false)
    ∧ (∀ (fs : String → Option String) (resolve : String → String)
        (globbed changed : List String) (excl : Option (List String))
        (docs : List TextDoc) (d : TextDoc),
        traverse fs resolve globbed true changed excl = Except.ok docs → d ∈ docs →
        isEligibleTs d.languageId d.text = true) := by
  refine ⟨?_, ?_, ?_, ?_, ?_, ?_⟩
  · intro h
    rw [isEligibleTs, if_pos]
    rw [Bool.or_eq_true, bne_iff_ne]
    exact Or.inl h
  · intro h
    rw [isEligibleTs, if_pos]
    rw [Bool.or_eq_true, Bool.not_eq_true']
    exact Or.inr h
  · intro h
    rw [isEligibleTs]
    split
    · rfl
    · rw [h]
      rfl
  · intro h
    rw [isEligibleTs]
    split
    · rfl
    · rw [h, Bool.or_true]
  · intro hext hscript hts himp
    subst hext
    rw [isEligibleTs, if_neg, hts, himp]
    · rfl
    · rw [Bool.or_eq_true, bne_iff_ne, Bool.not_eq_true', hscript]
      simp
  · intro fs resolve globbed changed excl docs d htr hd
    rw [traverse.eq_def] at htr
    cases hs : selectTargets resolve globbed changed excl with
    | error e => rw [hs] at htr; cases htr
    | ok targets =>
      rw [hs] at htr
      have htr2 : (match readAll fs targets with
          | Except.error e => Except.error e
          | Except.ok files0 => Except.ok (mkDocs true files0)) = Except.ok docs := htr
      cases hr : readAll fs targets with
      | error e => rw [hr] at htr2; cases htr2
      | ok files0 =>
        rw [hr] at htr2
        cases htr2
        rw [mkDocs] at hd
        simp only [if_true] at hd
        rcases List.mem_map.mp hd with ⟨r, hr2, rfl⟩
        have helig := List.of_mem_filter hr2
        exact helig

/-- Witness for C4 at concrete files: a plain `.ts` file; a `vue` file with
no script; one with `lang="ts"`; one with an external `src` reference; and a
plain inline-script `vue` file, which is rejected. -/
theorem c4_witness :
    isEligibleTs ("ts") ("export const n = 1") = true
    ∧ isEligibleTs ("vue") ("<template><p/></template>") = true
    ∧ isEligibleTs ("vue") ("<template/>\n<script lang=\"ts\">export default 1</script>") = true
    ∧ isEligibleTs ("vue") ("<template/>\n<script src=\"./x.ts\"></script>") = true
    ∧ isEligibleTs ("vue") ("<template/>\n<script>export default 1</script>") = false :=
  ⟨(c4_theorem ("ts") ("export const n = 1")).1 (by decide),
   (c4_theorem ("vue") ("<template><p/></template>")).2.1 (by decide),
   (c4_theorem ("vue")
      ("<template/>\n<script lang=\"ts\">export default 1</script>")).2.2.1 (by decide),
   (c4_theorem ("vue")
      ("<template/>\n<script src=\"./x.ts\"></script>")).2.2.2.1 (by decide),
   (c4_theorem ("vue")
      ("<template/>\n<script>export default 1</script>")).2.2.2.2.1 rfl
     (by decide) (by decide) (by decide)⟩

/-! ### Claim C6 -/

/-- C6: per document, template diagnostics come from the first producer
unconditionally; script diagnostics come from the second producer unless
`onlyTemplate` is set or that producer offers no `doValidation`; and the
reported list is the concatenation with every template diagnostic preceding
every script diagnostic. -/
theorem c6_theorem (ps : Producers) (onlyTemplate : Bool) (doc : TextDoc)
    (tpl : List Diagnostic) (hv : ps.vueValidate doc = Except.ok tpl) :
    ((onlyTemplate = true ∨ ps.scriptValidate = Option.none) →
      validateDoc ps onlyTemplate doc = Except.ok tpl)
    ∧ (∀ f scr, onlyTemplate = false → ps.scriptValidate = Option.some f →
        f doc = Except.ok scr →
        validateDoc ps onlyTemplate doc = Except.ok (tpl ++ scr)) := by
  constructor
  · intro h
    rcases h with h | h
    · subst h
      cases hsv : ps.scriptValidate with
      | none => simp [validateDoc, hv, hsv]
      | some f => simp [validateDoc, hv, hsv]
    · cases onlyTemplate with
      | false => simp [validateDoc, hv, h]
      | true => simp [validateDoc, hv, h]
  · intro f scr hot hsv hf
    subst hot
    simp [validateDoc, hv, hsv, hf]

/-- Witness for C6 at a concrete document and producers: the template
diagnostic precedes the script diagnostic in the concatenated result. -/
theorem c6_witness :
    validateDoc
        { vueValidate := fun _ => Except.ok [{ message := "t1" }],
          scriptValidate := Option.some fun _ => Except.ok [{ message := "s1" }] }
        false { uri := "u", languageId := "vue", version := 0, text := "" }
      = Except.ok ([{ message := "t1" }] ++ [{ message := "s1" }]) :=
  (c6_theorem
      { vueValidate := fun _ => Except.ok [{ message := "t1" }],
        scriptValidate := Option.some fun _ => Except.ok [{ message := "s1" }] }
      false { uri := "u", languageId := "vue", version := 0, text := "" }
      [{ message := "t1" }] rfl).2
    (fun _ => Except.ok [{ message := "s1" }]) [{ message := "s1" }] rfl rfl rfl

/-! ### Loop-level lemmas -/

/-- The loop emits only validation, report, tick and stop-notice events: any
predicate rejecting those four shapes counts zero occurrences in the loop's
trace. -/
theorem runDocs_countP (ps : Producers) (ot fe : Bool) (p : Event → Bool)
    (h1 : ∀ u, p (Event.validated u) = false)
    (h2 : ∀ u m, p (Event.reportError u m) = false)
    (h3 : p Event.tick = false) (h4 : p Event.stopNotice = false) :
    ∀ (docs : List TextDoc) (he : Bool) (te : Nat),
      (runDocs ps ot fe docs he te).events.countP p = 0 := by
  have hrep : ∀ (u : String) (results : List Diagnostic),
      (results.map fun r => Event.reportError u r.message).countP p = 0 := by
    intro u results
    rw [List.countP_eq_zero]
    intro a ha
    rcases List.mem_map.mp ha with ⟨r, _, rfl⟩
    simp [h2]
  intro docs
  induction docs with
  | nil => intro he te; rfl
  | cons doc rest ih =>
    intro he te
    cases hv : validateDoc ps ot doc with
    | error e => simp [runDocs, hv, List.countP_cons, h1]
    | ok results =>
      simp only [runDocs, hv]
      split
      · simp [List.countP_cons, List.countP_append, h1, h3, h4, hrep]
      · simp [List.countP_cons, List.countP_append, h1, h3, hrep, ih]

/-- Through the loop, `hasError` tracks a non-zero `totalErrors` (given that
the invariant holds for the starting accumulator). -/
theorem runDocs_hasError_iff (ps : Producers) (ot fe : Bool) :
    ∀ (docs : List TextDoc) (he : Bool) (te : Nat), (he = true ↔ te ≠ 0) →
      ((runDocs ps ot fe docs he te).hasError = true
        ↔ (runDocs ps ot fe docs he te).totalErrors ≠ 0) := by
  intro docs
  induction docs with
  | nil => intro he te h; exact h
  | cons doc rest ih =>
    intro he te h
    cases hv : validateDoc ps ot doc with
    | error e =>
      simp only [runDocs, hv]
      exact h
    | ok results =>
      have h2 : ((he || !results.isEmpty) = true ↔ te + results.length ≠ 0) := by
        cases results with
        | nil => simp [h]
        | cons r rs => simp [List.isEmpty_cons]
      simp only [runDocs, hv]
      split
      · exact h2
      · exact ih _ _ h2

/-- `validatedUris` distributes over append. -/
theorem validatedUris_append (a b : List Event) :
    validatedUris (a ++ b) = validatedUris a ++ validatedUris b := by
  simp [validatedUris]

/-- A block of validation events projects back to the uris. -/
theorem validatedUris_map_validated (l : List TextDoc) :
    validatedUris (l.map fun d => Event.validated d.uri) = l.map TextDoc.uri := by
  induction l with
  | nil => rfl
  | cons d rest ih =>
    rw [List.map_cons, List.map_cons,
      show validatedUris (Event.validated d.uri :: (rest.map fun d => Event.validated d.uri))
          = d.uri :: validatedUris (rest.map fun d => Event.validated d.uri) from rfl,
      ih]

/-- Report events contribute no validations. -/
theorem validatedUris_reports (u : String) (results : List Diagnostic) :
    validatedUris (results.map fun r => Event.reportError u r.message) = [] := by
  induction results with
  | nil => rfl
  | cons r rest ih =>
    rw [List.map_cons,
      show validatedUris (Event.reportError u r.message ::
            (rest.map fun r => Event.reportError u r.message))
          = validatedUris (rest.map fun r => Event.reportError u r.message) from rfl,
      ih]

/-- A run of validated-and-tick blocks projects back to the uris. -/
theorem validatedUris_blocks (pre : List TextDoc) :
    validatedUris (List.flatten (pre.map fun d => [Event.validated d.uri, Event.tick]))
      = pre.map TextDoc.uri := by
  induction pre with
  | nil => rfl
  | cons d rest ih =>
    rw [List.map_cons, List.map_cons,
      show List.flatten ([Event.validated d.uri, Event.tick] ::
            (rest.map fun d => [Event.validated d.uri, Event.tick]))
          = [Event.validated d.uri, Event.tick]
            ++ List.flatten (rest.map fun d => [Event.validated d.uri, Event.tick]) from rfl,
      validatedUris_append,
      show validatedUris [Event.validated d.uri, Event.tick] = [d.uri] from rfl,
      ih]
    rfl

/-- With `failExit` set, a loop whose documents validate cleanly up to the
first erroring document `dk` validates and ticks `pre` in order, then
validates `dk`, reports its diagnostics, ticks, emits the stop notice, and
breaks with `hasError` set and the diagnostics counted -- nothing after `dk`
is touched. -/
theorem runDocs_failFast (ps : Producers) (ot : Bool) :
    ∀ (pre : List TextDoc) (dk : TextDoc) (post : List TextDoc)
      (results : List Diagnostic),
      (∀ d ∈ pre, validateDoc ps ot d = Except.ok []) →
      validateDoc ps ot dk = Except.ok results → results ≠ [] →
      runDocs ps ot true (pre ++ dk :: post) false 0 =
        ⟨List.flatten (pre.map fun d => [Event.validated d.uri, Event.tick]) ++
          (Event.validated dk.uri ::
            (results.map fun r => Event.reportError dk.uri r.message)
            ++ [Event.tick, Event.stopNotice]),
          true, results.length, false⟩ := by
  intro pre
  induction pre with
  | nil =>
    intro dk post results hpre hk hne
    have hres : results.isEmpty = false := by
      cases results with
      | nil => exact absurd rfl hne
      | cons a l => rfl
    simp [runDocs, hk, hres]
  | cons d pre ih =>
    intro dk post results hpre hk hne
    have hd := hpre d (List.mem_cons_self d pre)
    have hih := ih dk post results (fun x hx => hpre x (List.mem_cons_of_mem d hx)) hk hne
    simp only [List.cons_append, runDocs, hd, List.isEmpty_nil, Bool.not_true,
      Bool.or_false, Bool.false_and, Bool.false_eq_true, if_false, List.length_nil,
      Nat.add_zero, List.map_nil, List.nil_append]
    try simp only [show List.append pre (dk :: post) = pre ++ dk :: post from rfl]
    rw [hih]
    simp

/-! ### Claim C1 -/

/-- C1 is false as stated: it demands that once document *k* yields a
diagnostic under `failFast`, no later document is loaded -- but every selected
file is read and its document constructed during selection, before validation
starts.  In this two-file fail-fast run the first document yields a
diagnostic, the run stops (exit code 1, second document never validated), yet
the second document WAS loaded. -/
theorem c1_counterexample :
    check (fun _ => Option.some ("s")) (fun p => p) [] (Except.ok psFailA) optsAB
      = Except.ok
          { events := traceC1, hasError := true, totalErrors := 1, exitCode := 1,
            exceptionCaught := false }
    ∧ Event.docLoaded ("file:///m/b.vue") ∈ traceC1
    ∧ Event.validated ("file:///m/b.vue") ∉ traceC1 :=
  ⟨rfl, by decide, by decide⟩

/-- C1 (amended): once document *k* (in discovery order) yields at least one
diagnostic while `failFast` is set, no document after *k* is validated (every
selected document was already loaded during selection, before validation
began), the stop notice instructing the operator to re-run locally is
emitted, and the final exit code is 1. -/
theorem c1_theorem (ps : Producers) (s : Source) (pre : List TextDoc)
    (dk : TextDoc) (post : List TextDoc) (results : List Diagnostic)
    (hfe : s.failExit = true)
    (hdocs : s.docs = pre ++ dk :: post)
    (hpre : ∀ d ∈ pre, validateDoc ps s.onlyTemplate d = Except.ok [])
    (hk : validateDoc ps s.onlyTemplate dk = Except.ok results)
    (hne : results ≠ []) :
    validatedUris (getDiagnostics (Except.ok ps) s).events
        = (pre ++ [dk]).map TextDoc.uri
    ∧ Event.stopNotice ∈ (getDiagnostics (Except.ok ps) s).events
    ∧ (getDiagnostics (Except.ok ps) s).exitCode = 1 := by
  have hrun := runDocs_failFast ps s.onlyTemplate pre dk post results hpre hk hne
  have hv1 : ∀ rest, validatedUris (Event.acquireRegions :: rest) = validatedUris rest :=
    fun _ => rfl
  have hv2 : ∀ rest,
      validatedUris (Event.acquireScriptRegions :: rest) = validatedUris rest :=
    fun _ => rfl
  have hv3 : ∀ u rest,
      validatedUris (Event.validated u :: rest) = u :: validatedUris rest :=
    fun _ _ => rfl
  have hv5 : ∀ rest, validatedUris (Event.tick :: rest) = validatedUris rest :=
    fun _ => rfl
  have hv6 : ∀ rest, validatedUris (Event.stopNotice :: rest) = validatedUris rest :=
    fun _ => rfl
  have hv7 : ∀ rest, validatedUris (Event.disposeRegions :: rest) = validatedUris rest :=
    fun _ => rfl
  have hv8 : ∀ rest,
      validatedUris (Event.disposeScriptRegions :: rest) = validatedUris rest :=
    fun _ => rfl
  have hv9 : ∀ c rest, validatedUris (Event.exit c :: rest) = validatedUris rest :=
    fun _ _ => rfl
  have hv0 : validatedUris [] = [] := rfl
  refine ⟨?_, ?_, ?_⟩
  · simp only [getDiagnostics, hfe, hdocs, hrun]
    simp [validatedUris_append, validatedUris_blocks, validatedUris_reports,
      hv1, hv2, hv3, hv5, hv6, hv7, hv8, hv9, hv0]
  · simp [getDiagnostics, hfe, hdocs, hrun]
  · simp [getDiagnostics, hfe, hdocs, hrun]

/-- Witness for C1 (amended) at a concrete two-document fail-fast run. -/
theorem c1_witness :
    validatedUris (getDiagnostics (Except.ok psFailA) srcAB).events
      = ["file:///m/a.vue"]
    ∧ Event.stopNotice ∈ (getDiagnostics (Except.ok psFailA) srcAB).events
    ∧ (getDiagnostics (Except.ok psFailA) srcAB).exitCode = 1 :=
  c1_theorem psFailA srcAB [] docA [docB] [{ message := "e" }] rfl rfl
    (by intro d hd; cases hd) rfl (by decide)

/-! ### Claim C3 -/

/-- C3: the computed exit code is 0 exactly when zero diagnostics were
produced across all processed documents and no exception was raised during
producer setup or validation; equivalently, exactly when `hasError` is false
across the whole run.  Otherwise the exit code is 1. -/
theorem c3_theorem (setup : Except String Producers) (s : Source) :
    ((getDiagnostics setup s).exitCode = 0
      ↔ ((getDiagnostics setup s).totalErrors = 0
          ∧ (getDiagnostics setup s).exceptionCaught = false))
    ∧ ((getDiagnostics setup s).exitCode = 0 ↔ (getDiagnostics setup s).hasError = false)
    ∧ ((getDiagnostics setup s).exitCode = 0 ∨ (getDiagnostics setup s).exitCode = 1) := by
  cases setup with
  | error e => simp [getDiagnostics]
  | ok ps =>
    have hiff := runDocs_hasError_iff ps s.onlyTemplate s.failExit s.docs false 0 (by simp)
    simp only [getDiagnostics]
    cases hexn : (runDocs ps s.onlyTemplate s.failExit s.docs false 0).exn with
    | true => simp [hexn]
    | false =>
      cases hhe : (runDocs ps s.onlyTemplate s.failExit s.docs false 0).hasError with
      | true =>
        have hne : (runDocs ps s.onlyTemplate s.failExit s.docs false 0).totalErrors ≠ 0 := by
          rw [hhe] at hiff
          exact hiff.mp rfl
        simp [hexn, hhe, hne]
      | false =>
        have h0 : (runDocs ps s.onlyTemplate s.failExit s.docs false 0).totalErrors = 0 := by
          by_contra hne
          have := hiff.mpr hne
          rw [hhe] at this
          cases this
        simp [hexn, hhe, h0]

/-! ### Claim C7 -/

/-- C7: the two caching layers are acquired (in order) before anything else
happens, and each is disposed exactly once — on every exit path: normal
completion, early stop under fail-fast, setup failure, and a producer
exception during validation are all instances of the universally quantified
`setup`, `docs` and producer behavior. -/
theorem c7_theorem (setup : Except String Producers) (s : Source) :
    (getDiagnostics setup s).events.take 2
        = [Event.acquireRegions, Event.acquireScriptRegions]
    ∧ (getDiagnostics setup s).events.countP isDisposeRegionsEvent = 1
    ∧ (getDiagnostics setup s).events.countP isDisposeScriptRegionsEvent = 1
    ∧ (getDiagnostics setup s).events.countP isAcquireRegionsEvent = 1
    ∧ (getDiagnostics setup s).events.countP isAcquireScriptRegionsEvent = 1 := by
  cases setup with
  | error e =>
    cases hfe : s.failExit <;>
      simp [getDiagnostics, hfe, List.countP_cons, List.countP_append, List.countP_nil,
        isDisposeRegionsEvent, isDisposeScriptRegionsEvent, isAcquireRegionsEvent,
        isAcquireScriptRegionsEvent]
  | ok ps =>
    have hz1 := runDocs_countP ps s.onlyTemplate s.failExit isDisposeRegionsEvent
      (fun u => rfl) (fun u m => rfl) rfl rfl s.docs false 0
    have hz2 := runDocs_countP ps s.onlyTemplate s.failExit isDisposeScriptRegionsEvent
      (fun u => rfl) (fun u m => rfl) rfl rfl s.docs false 0
    have hz3 := runDocs_countP ps s.onlyTemplate s.failExit isAcquireRegionsEvent
      (fun u => rfl) (fun u m => rfl) rfl rfl s.docs false 0
    have hz4 := runDocs_countP ps s.onlyTemplate s.failExit isAcquireScriptRegionsEvent
      (fun u => rfl) (fun u m => rfl) rfl rfl s.docs false 0
    cases hfe : s.failExit <;>
      cases hexn : (runDocs ps s.onlyTemplate s.failExit s.docs false 0).exn <;>
      · simp only [hfe] at hz1 hz2 hz3 hz4 hexn
        simp [List.countP_eq_zero, isDisposeRegionsEvent, isDisposeScriptRegionsEvent,
          isAcquireRegionsEvent, isAcquireScriptRegionsEvent] at hz1 hz2 hz3 hz4
        simp [getDiagnostics, hfe, hexn, List.countP_cons, List.countP_append,
          List.countP_nil, hz1, hz2, hz3, hz4, isDisposeRegionsEvent,
          isDisposeScriptRegionsEvent, isAcquireRegionsEvent, isAcquireScriptRegionsEvent]
        try exact ⟨hz1, hz2, hz3, hz4⟩

/-! ### Claim C9 -/

/-- C9: whenever `failFast` was not requested, exactly one summary event is
emitted, and it carries the run's total error count and the total document
count; in particular, with working producer setup, a run over zero documents
emits the summary for zero errors in zero files and exits 0. -/
theorem c9_theorem (setup : Except String Producers) (s : Source)
    (hfe : s.failExit = false) :
    (getDiagnostics setup s).events.countP isSummaryEvent = 1
    ∧ Event.summary (getDiagnostics setup s).totalErrors s.docs.length
        ∈ (getDiagnostics setup s).events
    ∧ (∀ ps, setup = Except.ok ps → s.docs = [] →
        Event.summary 0 0 ∈ (getDiagnostics setup s).events
        ∧ (getDiagnostics setup s).exitCode = 0) := by
  cases setup with
  | error e =>
    refine ⟨?_, ?_, ?_⟩
    · simp [getDiagnostics, hfe, List.countP_cons, List.countP_append, List.countP_nil,
        isSummaryEvent]
    · simp [getDiagnostics, hfe]
    · intro ps hps
      cases hps
  | ok ps =>
    have hz := runDocs_countP ps s.onlyTemplate s.failExit isSummaryEvent
      (fun u => rfl) (fun u m => rfl) rfl rfl s.docs false 0
    rw [hfe] at hz
    refine ⟨?_, ?_, ?_⟩
    · cases hexn : (runDocs ps s.onlyTemplate false s.docs false 0).exn <;>
      · simp [List.countP_eq_zero, isSummaryEvent] at hz
        simp [getDiagnostics, hfe, hexn, List.countP_cons, List.countP_append,
          List.countP_nil, hz, isSummaryEvent]
        try exact hz
    · simp [getDiagnostics, hfe]
    · intro ps2 hps hdocs
      cases hps
      constructor
      · simp [getDiagnostics, hfe, hdocs, runDocs]
      · simp [getDiagnostics, hfe, hdocs, runDocs]

/-- Witness for C9 at a concrete run with no fail-fast: one document with one
diagnostic; and separately the zero-document instance. -/
theorem c9_witness :
    ((getDiagnostics (Except.ok
        { vueValidate := fun _ => Except.ok [{ message := "m" }],
          scriptValidate := Option.none })
        { docs := [{ uri := "file:///a.vue", languageId := "vue", version := 0, text := "" }],
          workspace := "w", onlyTemplate := false, failExit := false }).events.countP
      isSummaryEvent = 1)
    ∧ ((getDiagnostics (Except.ok
        { vueValidate := fun _ => Except.ok [{ message := "m" }],
          scriptValidate := Option.none })
        { docs := [], workspace := "w", onlyTemplate := false, failExit := false }).exitCode
      = 0) := by
  constructor
  · exact (c9_theorem (Except.ok
        { vueValidate := fun _ => Except.ok [{ message := "m" }],
          scriptValidate := Option.none })
      { docs := [{ uri := "file:///a.vue", languageId := "vue", version := 0, text := "" }],
        workspace := "w", onlyTemplate := false, failExit := false } rfl).1
  · exact ((c9_theorem (Except.ok
        { vueValidate := fun _ => Except.ok [{ message := "m" }],
          scriptValidate := Option.none })
      { docs := [], workspace := "w", onlyTemplate := false, failExit := false } rfl).2.2
      { vueValidate := fun _ => Except.ok [{ message := "m" }],
        scriptValidate := Option.none } rfl rfl).2

/-! ### Claim C8 -/

/-- C8: any exception raised while constructing the producers (`setup` is an
error) or while invoking them (the loop ends with an exception) is caught at
the orchestration boundary: `hasError` is set, the failure is logged, and
control proceeds to cleanup and normal exit-code computation — both dispose
events occur exactly once and the exit code is 1 — without re-raising, since
`getDiagnostics` returns an outcome rather than an error.  File-read failures
raised during selection/loading, by contrast, are not caught there: `check`
propagates the `traverse` error verbatim and no run outcome is produced. -/
theorem c8_theorem (msg : String) (s : Source) (ps : Producers)
    (fs : String → Option String) (resolve : String → String) (globbed : List String)
    (setup : Except String Producers) (options : Options) (e : TraverseError)
    (htr : traverse fs resolve globbed options.onlyTypeScript options.files
      (excludeDirsOf options.excludeDir) = Except.error e) :
    ((getDiagnostics (Except.error msg) s).hasError = true
      ∧ Event.logException ∈ (getDiagnostics (Except.error msg) s).events
      ∧ (getDiagnostics (Except.error msg) s).exitCode = 1
      ∧ (getDiagnostics (Except.error msg) s).events.countP isDisposeRegionsEvent = 1
      ∧ (getDiagnostics (Except.error msg) s).events.countP isDisposeScriptRegionsEvent
          = 1)
    ∧ ((getDiagnostics (Except.ok ps) s).exceptionCaught = true →
        (getDiagnostics (Except.ok ps) s).hasError = true
        ∧ Event.logException ∈ (getDiagnostics (Except.ok ps) s).events
        ∧ (getDiagnostics (Except.ok ps) s).exitCode = 1)
    ∧ check fs resolve globbed setup options = Except.error e := by
  refine ⟨⟨?_, ?_, ?_, ?_, ?_⟩, ?_, ?_⟩
  · rfl
  · simp [getDiagnostics]
  · rfl
  · cases hfe : s.failExit <;>
      simp [getDiagnostics, hfe, List.countP_cons, List.countP_append, List.countP_nil,
        isDisposeRegionsEvent]
  · cases hfe : s.failExit <;>
      simp [getDiagnostics, hfe, List.countP_cons, List.countP_append, List.countP_nil,
        isDisposeScriptRegionsEvent]
  · intro hexc
    have hexn : (runDocs ps s.onlyTemplate s.failExit s.docs false 0).exn = true := hexc
    refine ⟨?_, ?_, ?_⟩
    · simp [getDiagnostics, hexn]
    · simp [getDiagnostics, hexn]
    · simp [getDiagnostics, hexn]
  · simp [check, htr]

/-- Witness for C8: a failed setup over one document; producers that throw
during validation of that document; and a file-read failure that propagates
out of `check` untouched. -/
theorem c8_witness :
    ((getDiagnostics (Except.error ("boom")) srcA).hasError = true
      ∧ Event.logException ∈ (getDiagnostics (Except.error ("boom")) srcA).events
      ∧ (getDiagnostics (Except.error ("boom")) srcA).exitCode = 1
      ∧ (getDiagnostics (Except.error ("boom")) srcA).events.countP
          isDisposeRegionsEvent = 1
      ∧ (getDiagnostics (Except.error ("boom")) srcA).events.countP
          isDisposeScriptRegionsEvent = 1)
    ∧ ((getDiagnostics (Except.ok psThrow) srcA).hasError = true
      ∧ Event.logException ∈ (getDiagnostics (Except.ok psThrow) srcA).events
      ∧ (getDiagnostics (Except.ok psThrow) srcA).exitCode = 1)
    ∧ check (fun _ => Option.none) (fun p => p) [] (Except.ok psThrow) optsAB
        = Except.error (TraverseError.fileRead ("/m/a.vue")) :=
  have h := c8_theorem ("boom") srcA psThrow (fun _ => Option.none) (fun p => p) []
    (Except.ok psThrow) optsAB (TraverseError.fileRead ("/m/a.vue")) rfl
  ⟨h.1, h.2.1 rfl, h.2.2⟩

/-! ### Claim C10 -/

/-- C10: the exclusion entries are interpolated into the pattern without
escaping, so they act as regex fragments, not literal prefixes.  First part:
the entry `/b.d` drops the candidate `/bxd/g.vue` even though that path does
not begin with the literal entry string (`.` matched `x`).  Second part: an
entry containing `(` makes pattern construction fail during selection, so the
run aborts with the exclusion-configuration error. -/
theorem c10_theorem :
    (traverse (fun _ => Option.some ("y")) (fun p => p) [] false
        ["/bxd/g.vue"] (Option.some ["/b.d"]) = Except.ok []
      ∧ (("/b.d") : String).data.isPrefixOf (("/bxd/g.vue") : String).data = false)
    ∧ traverse (fun _ => Option.some ("y")) (fun p => p) [] false
        ["/b/g.vue"] (Option.some ["/b("]) = Except.error TraverseError.exclusionConfig :=
  ⟨⟨rfl, by decide⟩, rfl⟩

end Vtc
